import Mathlib

/-!
Shallow embedding of the opinion-mapping and clustering pipeline of the
cosenseus repository, covering:

* `OpinionAnalyzer._convert_to_numerical_matrix` and `OpinionAnalyzer.analyze`
  (backend/nlp_service/core/opinion_analyzer.py),
* `OllamaClient.extract_statements` and `OllamaClient.map_response_to_statements`
  (backend/nlp_service/ollama_client.py),
* `_run_polis_analysis` (backend/api-gateway/routers/ai_analysis_local.py).

Modelling conventions: Python dicts holding the per-user records become
structures; the LLM calls (generate_response followed by JSON extraction)
become oracle parameters of type `Except String ...` where `.error` stands for
an exception raised inside the try block; the sklearn PCA and KMeans fits are
opaque function parameters, since the claims only concern the branch that
skips them; numpy matrices are lists of rows, with out-of-range numpy
indexing (which raises IndexError) modelled by `Except`-returning accessors.
Matrix cells are exact integers (the encoding only ever writes -1, 0, 1);
reduced coordinates are rationals standing for the floats.
-/

namespace Cosenseus

/-- One element of the `mapping` list returned by the mapper capability.
Python dict access is by `.get`, so both keys are optional: `none` models a
missing key (`mapping.get('statement')` yields `None`,
`mapping.get('position', 'pass')` yields the default). -/
structure MappingEntry where
  statement : Option String
  position : Option String
deriving DecidableEq, Repr

/-- One element of `user_statement_matrix` as assembled by
`_run_polis_analysis`: `{"user_id": ..., "response": ..., "mapping": ...}`. -/
structure UserData where
  user_id : String
  response : String
  mapping : List MappingEntry
deriving DecidableEq, Repr

/-- One element of the `results` list assembled by `OpinionAnalyzer.analyze`. -/
structure UserResult where
  user_id : String
  response : String
  x : ℚ
  y : ℚ
  cluster : ℕ
deriving DecidableEq, Repr

/-! ## The statement -> column-index dictionary

`statement_map = {statement: i for i, statement in enumerate(statements)}`.
A Python dict comprehension assigns in order, so a duplicated key keeps the
index of its LAST occurrence.  We model the dict as its lookup function and
the comprehension as the loop of assignments it abbreviates. -/

/-- The loop `for i, statement in enumerate(statements): d[statement] = i`
starting from dictionary `d` at index `i`. -/
def dictAssignAll (d : String → Option ℕ) (i : ℕ) : List String → (String → Option ℕ)
  | [] => d
  | s :: rest => dictAssignAll (fun t => if t = s then some i else d t) (i + 1) rest

/-- `statement_map` of `_convert_to_numerical_matrix`, as a lookup function. -/
def statement_map (statements : List String) : String → Option ℕ :=
  dictAssignAll (fun _ => none) 0 statements

/-- Python `str.lower()`, modelled characterwise (identical to CPython on
the ASCII position strings this pipeline compares). -/
def pyLower (s : String) : String :=
  String.mk (s.data.map Char.toLower)

/-- `mapping.get('position', 'pass').lower()`. -/
def positionOf (e : MappingEntry) : String :=
  pyLower (e.position.getD "pass")

/-- Processing one mapping entry against one row of the matrix: the body of
the inner loop of `_convert_to_numerical_matrix`.  The entry is a no-op
unless its statement text is a key of the dictionary and its lowered
position is `agree` or `disagree`. -/
def applyMapping (smap : String → Option ℕ) (row : List ℤ) (e : MappingEntry) : List ℤ :=
  match e.statement with
  | none => row
  | some text =>
    match smap text with
    | none => row
    | some j =>
      if positionOf e = "agree" then row.set j 1
      else if positionOf e = "disagree" then row.set j (-1)
      else row

/-- `OpinionAnalyzer._convert_to_numerical_matrix`: start from
`np.zeros((num_users, num_statements))` and process every user's mapping
entries in order.  Rows are independent, so the double loop is a map of
per-row folds. -/
def _convert_to_numerical_matrix (user_statement_matrix : List UserData)
    (statements : List String) : List (List ℤ) :=
  let smap := statement_map statements
  user_statement_matrix.map
    (fun u => u.mapping.foldl (applyMapping smap) (List.replicate statements.length 0))

/-- Cell access `matrix[u, j]` (total, with default 0; the claims that need
in-range behaviour carry the range hypotheses). -/
def matCell (M : List (List ℤ)) (u j : ℕ) : ℤ :=
  (((M[u]?).getD [])[j]?).getD 0

/-- Does entry `e` address column `j` of the dictionary `smap`? -/
def targetsColB (smap : String → Option ℕ) (e : MappingEntry) (j : ℕ) : Bool :=
  match e.statement with
  | some s => smap s == some j
  | none => false

/-- Is the entry's lowered position one of the two recognized writers? -/
def recognizedB (e : MappingEntry) : Bool :=
  positionOf e == "agree" || positionOf e == "disagree"

/-- The value a recognized entry writes; unrecognized positions write
nothing, which the characterizations render as 0. -/
def encodeVal (e : MappingEntry) : ℤ :=
  if positionOf e = "agree" then 1
  else if positionOf e = "disagree" then -1
  else 0

/-- Does the entry's statement text appear in the dictionary at all? -/
def knownB (smap : String → Option ℕ) (e : MappingEntry) : Bool :=
  match e.statement with
  | some s => (smap s).isSome
  | none => false

/-! ## Reduction, clustering and result assembly (`OpinionAnalyzer.analyze`)

The sklearn calls `self.pca.fit_transform` and `self.kmeans.fit_predict` are
opaque parameters `pca` and `kmeans`; the claims are about the branch that
never reaches them.  `rows` and `cols` are the numpy shape of the numerical
matrix, which in `analyze` is `(len(user_statement_matrix), len(statements))`. -/

/-- The reduce-and-cluster branch inside `OpinionAnalyzer.analyze`
(lines 56-64): if `n_components >= min(shape)`, skip PCA and KMeans and
return `np.zeros((rows, n_components))` with an all-zero integer label
vector; otherwise fit-transform then fit-predict. -/
def reduce_and_cluster (n_components rows cols : ℕ)
    (pca : List (List ℤ) → List (List ℚ)) (kmeans : List (List ℚ) → List ℕ)
    (numerical_matrix : List (List ℤ)) : List (List ℚ) × List ℕ :=
  if n_components ≥ Nat.min rows cols then
    (List.replicate rows (List.replicate n_components (0 : ℚ)), List.replicate rows 0)
  else
    let reduced_matrix := pca numerical_matrix
    (reduced_matrix, kmeans reduced_matrix)

/-- `reduced_matrix[i, j]` with numpy semantics: out of range raises. -/
def npCell (m : List (List ℚ)) (i j : ℕ) : Except String ℚ :=
  match m[i]? with
  | none => .error "IndexError"
  | some row =>
    match row[j]? with
    | none => .error "IndexError"
    | some v => .ok v

/-- `clusters[i]` with numpy semantics: out of range raises. -/
def npLabel (l : List ℕ) (i : ℕ) : Except String ℕ :=
  match l[i]? with
  | none => .error "IndexError"
  | some v => .ok v

/-- The assembly loop of `analyze` (lines 67-75): for each user in order,
read `reduced_matrix[i, 0]`, `reduced_matrix[i, 1]` and `clusters[i]` and
build the result record; any out-of-range read propagates as the raised
IndexError. -/
def assemble (reduced : List (List ℚ)) (clusters : List ℕ) :
    ℕ → List UserData → Except String (List UserResult)
  | _, [] => .ok []
  | i, u :: rest =>
    match npCell reduced i 0, npCell reduced i 1, npLabel clusters i with
    | .ok x, .ok y, .ok c =>
      match assemble reduced clusters (i + 1) rest with
      | .ok l => .ok ({ user_id := u.user_id, response := u.response,
                        x := x, y := y, cluster := c } :: l)
      | .error e => .error e
    | .error e, _, _ => .error e
    | _, .error e, _ => .error e
    | _, _, .error e => .error e

/-- `OpinionAnalyzer.analyze`: empty input short-circuits to
`{"users": []}`; otherwise convert to the numerical matrix, run the
reduce-and-cluster branch, and assemble.  The returned list is the value of
the `"users"` key of the Python result dict. -/
def analyze (n_components : ℕ)
    (pca : List (List ℤ) → List (List ℚ)) (kmeans : List (List ℚ) → List ℕ)
    (user_statement_matrix : List UserData) (statements : List String) :
    Except String (List UserResult) :=
  if user_statement_matrix.isEmpty then .ok []
  else
    let numerical_matrix := _convert_to_numerical_matrix user_statement_matrix statements
    let rc := reduce_and_cluster n_components
      user_statement_matrix.length statements.length pca kmeans numerical_matrix
    assemble rc.1 rc.2 0 user_statement_matrix

/-! ## The capability wrappers (`OllamaClient`)

`generate_response` plus `_extract_simple_json` plus `.get(key, default)` is
one oracle parameter per call: `.error msg` models an exception raised
inside the try block, `.ok v` models the value the code reads out of the
parsed dict (with the `.get` default already applied). -/

/-- The three default statements appended when extraction yields fewer than
three statements. -/
def defaultStatements : List String :=
  ["This issue affects our community",
   "Action is needed to address this concern",
   "Multiple perspectives should be considered"]

/-- `OllamaClient.extract_statements` (lines 540-589), returning the value
of the `"statements"` key of its result dict.  Empty input short-circuits
before the LLM call; more than 10 parsed statements are truncated to 10;
fewer than 3 are padded with the three defaults; an exception yields one
placeholder statement. -/
def extract_statements (oracle : Except String (List String))
    (responses : List String) : List String :=
  if responses.isEmpty then []
  else
    match oracle with
    | .error _ => ["Error extracting statements"]
    | .ok statements =>
      if statements.length > 10 then statements.take 10
      else if statements.length < 3 then statements ++ defaultStatements
      else statements

/-- The statement text an entry covers, as the completion step computes it:
`m.get("statement", "")`. -/
def coveredText (e : MappingEntry) : String :=
  e.statement.getD ""

/-- `OllamaClient.map_response_to_statements` (lines 594-678), returning the
value of the `"mapping"` key.  Empty statement list short-circuits; an
exception yields a pass entry for every statement; otherwise the raw parsed
mapping is kept as-is and, for every statement not among the covered texts
(the set is computed once, before the loop), a pass entry is appended in
statement-list order. -/
def map_response_to_statements (oracle : Except String (List MappingEntry))
    (response_text : String) (statements : List String) : List MappingEntry :=
  if statements.isEmpty then []
  else
    match oracle with
    | .error _ => statements.map (fun s => { statement := some s, position := some "pass" })
    | .ok mapping =>
      let covered_statements := mapping.map coveredText
      mapping ++ (statements.filter (fun s => ¬ s ∈ covered_statements)).map
        (fun s => { statement := some s, position := some "pass" })

/-! ## The orchestrator (`_run_polis_analysis`) -/

/-- A raised `fastapi.HTTPException`. -/
structure HTTPError where
  status_code : ℕ
  detail : String
deriving DecidableEq, Repr

/-- How `_run_polis_analysis` can fail: an explicitly raised HTTPException,
or an uncaught Python exception (here only the IndexError out of
`analyze`) propagating to the caller. -/
inductive PolisError where
  | http : HTTPError → PolisError
  | py : String → PolisError
deriving DecidableEq, Repr

/-- The success dict of `_run_polis_analysis`; `analysis_results` is the
`"users"` list of the nested `analyze` result. -/
structure PolisResult where
  statements : List String
  analysis_results : List UserResult
deriving DecidableEq, Repr

/-- The error `_run_polis_analysis` raises when extraction yields nothing. -/
def noStatementsError : PolisError :=
  .http { status_code := 500, detail := "Failed to extract statements for analysis." }

/-- The `user_id` rule of the step-2 loop:
`user_ids[i] if user_ids and i < len(user_ids) else f"participant_{i+1}"`
(a `None` or empty `user_ids` is falsy). -/
def assignUserId (user_ids : Option (List String)) (i : ℕ) : String :=
  match user_ids with
  | some ids =>
    if h : i < ids.length then ids.get ⟨i, h⟩ else "participant_" ++ toString (i + 1)
  | none => "participant_" ++ toString (i + 1)

/-- The step-2 loop of `_run_polis_analysis`: one `UserData` per response in
input order, with the positional user id and the mapper capability's mapping. -/
def buildUserMatrix (mapper : String → List String → List MappingEntry)
    (user_ids : Option (List String)) (statements : List String) :
    ℕ → List String → List UserData
  | _, [] => []
  | i, r :: rest =>
    { user_id := assignUserId user_ids i, response := r,
      mapping := mapper r statements } ::
      buildUserMatrix mapper user_ids statements (i + 1) rest

/-- `_run_polis_analysis` (ai_analysis_local.py lines 842-877): extract
statements, raise HTTP 500 if there are none, build the user-statement
matrix, analyze with the default `OpinionAnalyzer()` (`n_components = 2`),
and return the statements together with the analysis users list. -/
def _run_polis_analysis (extractor : List String → List String)
    (mapper : String → List String → List MappingEntry)
    (pca : List (List ℤ) → List (List ℚ)) (kmeans : List (List ℚ) → List ℕ)
    (responses : List String) (user_ids : Option (List String)) :
    Except PolisError PolisResult :=
  let statements := extractor responses
  if statements.isEmpty then
    .error (.http { status_code := 500, detail := "Failed to extract statements for analysis." })
  else
    let user_statement_matrix := buildUserMatrix mapper user_ids statements 0 responses
    match analyze 2 pca kmeans user_statement_matrix statements with
    | .error e => .error (.py e)
    | .ok users => .ok { statements := statements, analysis_results := users }

/-! ## Concrete instances used by counterexamples and witnesses -/

/-- Stub PCA fit-transform (never consulted in the degenerate branch). -/
def pcaStub : List (List ℤ) → List (List ℚ) := fun _ => []

/-- Stub KMeans fit-predict (never consulted in the degenerate branch). -/
def kmStub : List (List ℚ) → List ℕ := fun _ => []

/-- Stub mapper capability returning an empty raw mapping. -/
def mapperStub : String → List String → List MappingEntry := fun _ _ => []

/-- Stub extractor capability returning zero statements. -/
def emptyExtractor : List String → List String := fun _ => []

/-- Stub extractor capability returning one fixed statement. -/
def constExtractor : List String → List String := fun _ => ["s"]

/-- The single statement of the boundary scenario of the spec (section 8). -/
def parkStatements : List String := ["We should build the new park"]

/-- The three-user boundary scenario: the mapper answered agree, disagree
and pass respectively against the single park statement. -/
def parkScenario : List UserData :=
  [{ user_id := "participant_1", response := "I support the new park",
     mapping := [{ statement := some "We should build the new park", position := some "agree" }] },
   { user_id := "participant_2", response := "I oppose the new park",
     mapping := [{ statement := some "We should build the new park", position := some "disagree" }] },
   { user_id := "participant_3", response := "Not sure about the park",
     mapping := [{ statement := some "We should build the new park", position := some "pass" }] }]

/-- A raw capability mapping holding two entries for the same statement. -/
def dupRawMapping : List MappingEntry :=
  [{ statement := some "s", position := some "agree" },
   { statement := some "s", position := some "disagree" }]

/-! ## Dictionary lemmas: `statement_map` is last-occurrence-wins -/

theorem dictAssignAll_snoc (l : List String) (d : String → Option ℕ) (i : ℕ) (x : String) :
    dictAssignAll d i (l ++ [x]) =
      fun s => if s = x then some (i + l.length) else dictAssignAll d i l s := by
  induction l generalizing d i with
  | nil => funext s; simp [dictAssignAll]
  | cons a t ih =>
    simp only [List.cons_append, dictAssignAll, List.append_eq]
    rw [ih]
    funext s
    by_cases hs : s = x <;> simp [hs, dictAssignAll, Nat.add_comm, Nat.add_left_comm]

theorem statement_map_snoc (l : List String) (x : String) :
    statement_map (l ++ [x]) =
      fun s => if s = x then some l.length else statement_map l s := by
  unfold statement_map
  rw [dictAssignAll_snoc]
  simp

theorem dictAssignAll_range (l : List String) (d : String → Option ℕ) (i j : ℕ) (s : String)
    (h : dictAssignAll d i l s = some j) :
    d s = some j ∨ (i ≤ j ∧ j < i + l.length) := by
  induction l generalizing d i with
  | nil => exact Or.inl h
  | cons a t ih =>
    simp only [dictAssignAll] at h
    rcases ih _ _ h with h' | h'
    · by_cases hs : s = a
      · simp [hs] at h'
        right
        simp only [List.length_cons]
        omega
      · simp only [if_neg hs] at h'
        exact Or.inl h'
    · right
      simp only [List.length_cons]
      omega

theorem statement_map_range (l : List String) (s : String) (j : ℕ)
    (h : statement_map l s = some j) : j < l.length := by
  rcases dictAssignAll_range l _ 0 j s h with h' | h'
  · exact absurd h' (by simp)
  · omega

theorem statement_map_inj (l : List String) (s₁ s₂ : String) (j : ℕ)
    (h₁ : statement_map l s₁ = some j) (h₂ : statement_map l s₂ = some j) : s₁ = s₂ := by
  induction l using List.reverseRecOn with
  | nil => simp [statement_map, dictAssignAll] at h₁
  | append_singleton t x ih =>
    rw [statement_map_snoc] at h₁ h₂
    by_cases e₁ : s₁ = x <;> by_cases e₂ : s₂ = x
    · rw [e₁, e₂]
    · simp [e₁] at h₁
      simp only [if_neg e₂] at h₂
      have := statement_map_range t s₂ j h₂
      omega
    · simp [e₂] at h₂
      simp only [if_neg e₁] at h₁
      have := statement_map_range t s₁ j h₁
      omega
    · simp only [if_neg e₁] at h₁
      simp only [if_neg e₂] at h₂
      exact ih h₁ h₂

/-! ## Matrix-builder lemmas -/

theorem applyMapping_length (smap : String → Option ℕ) (row : List ℤ) (e : MappingEntry) :
    (applyMapping smap row e).length = row.length := by
  rcases e with ⟨st, pos⟩
  cases st with
  | none => rfl
  | some s =>
    cases hm : smap s with
    | none => simp [applyMapping, hm]
    | some j =>
      by_cases hA : positionOf ⟨some s, pos⟩ = "agree" <;>
        by_cases hD : positionOf ⟨some s, pos⟩ = "disagree" <;>
        simp [applyMapping, hm, hA, hD, List.length_set]

theorem foldl_applyMapping_length (smap : String → Option ℕ) (entries : List MappingEntry)
    (row : List ℤ) : (entries.foldl (applyMapping smap) row).length = row.length := by
  induction entries generalizing row with
  | nil => rfl
  | cons e t ih => rw [List.foldl_cons, ih, applyMapping_length]

/-- A mapping entry whose statement text is not a key of the dictionary is a
no-op on the row. -/
theorem applyMapping_unknown (smap : String → Option ℕ) (row : List ℤ) (e : MappingEntry)
    (h : knownB smap e = false) : applyMapping smap row e = row := by
  rcases e with ⟨st, pos⟩
  cases st with
  | none => rfl
  | some s =>
    cases hm : smap s with
    | none => simp [applyMapping, hm]
    | some j => simp [knownB, hm] at h

/-- The cell a fold of mapping entries leaves at column `j`: the value of
the last entry addressing column `j` with a recognized position, or the
initial cell when there is none. -/
theorem foldl_applyMapping_getElem? (smap : String → Option ℕ) (entries : List MappingEntry)
    (row : List ℤ) (j : ℕ) (hj : j < row.length) :
    (entries.foldl (applyMapping smap) row)[j]? =
      match (entries.filter (fun e => targetsColB smap e j && recognizedB e)).getLast? with
      | some e => some (encodeVal e)
      | none => row[j]? := by
  induction entries using List.reverseRecOn with
  | nil => simp
  | append_singleton t e ih =>
    rw [List.foldl_append, List.filter_append, List.foldl_cons, List.foldl_nil]
    have hR : (t.foldl (applyMapping smap) row).length = row.length :=
      foldl_applyMapping_length smap t row
    rcases e with ⟨st, pos⟩
    cases st with
    | none =>
      have hp : (targetsColB smap ⟨none, pos⟩ j && recognizedB ⟨none, pos⟩) = false := by
        simp [targetsColB]
      rw [List.filter_singleton]
      simp only [hp, cond_false, List.append_nil]
      rw [show applyMapping smap (t.foldl (applyMapping smap) row) ⟨none, pos⟩ =
        t.foldl (applyMapping smap) row from rfl]
      exact ih
    | some s =>
      cases hm : smap s with
      | none =>
        have hp : (targetsColB smap ⟨some s, pos⟩ j && recognizedB ⟨some s, pos⟩) = false := by
          simp [targetsColB, hm]
        rw [List.filter_singleton]
        simp only [hp, cond_false, List.append_nil]
        have hid : applyMapping smap (t.foldl (applyMapping smap) row) ⟨some s, pos⟩ =
            t.foldl (applyMapping smap) row := by
          simp [applyMapping, hm]
        rw [hid]
        exact ih
      | some j' =>
        by_cases hA : positionOf ⟨some s, pos⟩ = "agree"
        · have happ : applyMapping smap (t.foldl (applyMapping smap) row) ⟨some s, pos⟩ =
              (t.foldl (applyMapping smap) row).set j' 1 := by
            simp [applyMapping, hm, hA]
          rw [happ]
          by_cases hjj : j' = j
          · have hp : (targetsColB smap ⟨some s, pos⟩ j && recognizedB ⟨some s, pos⟩) = true := by
              simp [targetsColB, recognizedB, hm, hjj, hA]
            rw [List.filter_singleton]
            simp only [hp, cond_true]
            rw [List.getLast?_concat]
            rw [hjj, List.getElem?_set]
            simp [hR, hj, encodeVal, hA]
          · have hp : (targetsColB smap ⟨some s, pos⟩ j && recognizedB ⟨some s, pos⟩) = false := by
              simp [targetsColB, hm, hjj]
            rw [List.filter_singleton]
            simp only [hp, cond_false, List.append_nil]
            rw [List.getElem?_set]
            simp only [hjj, if_false]
            exact ih
        · by_cases hD : positionOf ⟨some s, pos⟩ = "disagree"
          · have happ : applyMapping smap (t.foldl (applyMapping smap) row) ⟨some s, pos⟩ =
                (t.foldl (applyMapping smap) row).set j' (-1) := by
              simp [applyMapping, hm, hA, hD]
            rw [happ]
            by_cases hjj : j' = j
            · have hp : (targetsColB smap ⟨some s, pos⟩ j &&
                  recognizedB ⟨some s, pos⟩) = true := by
                simp [targetsColB, recognizedB, hm, hjj, hD]
              rw [List.filter_singleton]
              simp only [hp, cond_true]
              rw [List.getLast?_concat]
              rw [hjj, List.getElem?_set]
              simp [hR, hj, encodeVal, hA, hD]
            · have hp : (targetsColB smap ⟨some s, pos⟩ j &&
                  recognizedB ⟨some s, pos⟩) = false := by
                simp [targetsColB, hm, hjj]
              rw [List.filter_singleton]
              simp only [hp, cond_false, List.append_nil]
              rw [List.getElem?_set]
              simp only [hjj, if_false]
              exact ih
          · have hp : (targetsColB smap ⟨some s, pos⟩ j &&
                recognizedB ⟨some s, pos⟩) = false := by
              simp [recognizedB, hA, hD]
            rw [List.filter_singleton]
            simp only [hp, cond_false, List.append_nil]
            have hid : applyMapping smap (t.foldl (applyMapping smap) row) ⟨some s, pos⟩ =
                t.foldl (applyMapping smap) row := by
              simp [applyMapping, hm, hA, hD]
            rw [hid]
            exact ih

/-- All cells of a fold stay in `\x7b-1, 0, 1\x7d` when they start there. -/
theorem foldl_applyMapping_mem (smap : String → Option ℕ) (entries : List MappingEntry)
    (row : List ℤ) (h : ∀ v ∈ row, v = -1 ∨ v = 0 ∨ v = 1) :
    ∀ v ∈ entries.foldl (applyMapping smap) row, v = -1 ∨ v = 0 ∨ v = 1 := by
  induction entries generalizing row with
  | nil => exact h
  | cons e t ih =>
    rw [List.foldl_cons]
    refine ih _ ?_
    intro v hv
    rcases e with ⟨st, pos⟩
    cases st with
    | none => exact h v hv
    | some s =>
      cases hm : smap s with
      | none =>
        rw [show applyMapping smap row ⟨some s, pos⟩ = row by simp [applyMapping, hm]] at hv
        exact h v hv
      | some j =>
        by_cases hA : positionOf ⟨some s, pos⟩ = "agree"
        · rw [show applyMapping smap row ⟨some s, pos⟩ = row.set j 1 by
            simp [applyMapping, hm, hA]] at hv
          rcases List.mem_or_eq_of_mem_set hv with h' | h'
          · exact h v h'
          · right; right; exact h'
        · by_cases hD : positionOf ⟨some s, pos⟩ = "disagree"
          · rw [show applyMapping smap row ⟨some s, pos⟩ = row.set j (-1) by
              simp [applyMapping, hm, hA, hD]] at hv
            rcases List.mem_or_eq_of_mem_set hv with h' | h'
            · exact h v h'
            · left; exact h'
          · rw [show applyMapping smap row ⟨some s, pos⟩ = row by
              simp [applyMapping, hm, hA, hD]] at hv
            exact h v hv

/-- Entries whose statement text is unknown are silently dropped: filtering
them away does not change the fold. -/
theorem foldl_applyMapping_filter_known (smap : String → Option ℕ)
    (entries : List MappingEntry) (row : List ℤ) :
    (entries.filter (knownB smap)).foldl (applyMapping smap) row =
      entries.foldl (applyMapping smap) row := by
  induction entries generalizing row with
  | nil => rfl
  | cons e t ih =>
    rw [List.filter_cons]
    by_cases hk : knownB smap e
    · rw [if_pos (by simp [hk])]
      rw [List.foldl_cons, List.foldl_cons, ih]
    · rw [if_neg (by simp [Bool.not_eq_true] at hk ⊢; exact hk)]
      rw [List.foldl_cons, applyMapping_unknown smap row e (by simpa using hk), ih]

/-- Pointwise description of the built matrix: the cell at `(u, j)` is the
value of the last recognized entry of user `u` addressing column `j`, or 0. -/
theorem convert_cell_spec (usm : List UserData) (sts : List String) (u j : ℕ)
    (hu : u < usm.length) (hj : j < sts.length) :
    matCell (_convert_to_numerical_matrix usm sts) u j =
      match ((usm.get ⟨u, hu⟩).mapping.filter
          (fun e => targetsColB (statement_map sts) e j && recognizedB e)).getLast? with
      | some e => encodeVal e
      | none => 0 := by
  unfold matCell _convert_to_numerical_matrix
  rw [List.getElem?_map, List.getElem?_eq_getElem hu]
  simp only [Option.map_some', Option.getD_some]
  have hj' : j < (List.replicate sts.length (0 : ℤ)).length := by
    simpa using hj
  rw [foldl_applyMapping_getElem? (statement_map sts) _ _ j hj']
  cases hlast : ((usm.get ⟨u, hu⟩).mapping.filter
      (fun e => targetsColB (statement_map sts) e j && recognizedB e)).getLast? with
  | none => simp [List.getElem?_replicate, hj]
  | some e => simp

/-! ## Assembly and orchestrator lemmas -/

/-- The identity and response of a `UserResult`. -/
def pairOfResult (r : UserResult) : String × String := (r.user_id, r.response)

/-- The identity and response of a `UserData`. -/
def pairOfUser (u : UserData) : String × String := (u.user_id, u.response)

/-- A successful assembly copies every user's id and response, in order. -/
theorem assemble_ok_pairs (reduced : List (List ℚ)) (clusters : List ℕ) (i : ℕ)
    (us : List UserData) (l : List UserResult)
    (h : assemble reduced clusters i us = .ok l) :
    l.map pairOfResult = us.map pairOfUser := by
  induction us generalizing i l with
  | nil =>
    simp only [assemble] at h
    cases h
    rfl
  | cons u rest ih =>
    rw [assemble] at h
    cases h0 : npCell reduced i 0 with
    | error e => rw [h0] at h; exact absurd h (by simp)
    | ok x =>
      cases h1 : npCell reduced i 1 with
      | error e => rw [h0, h1] at h; exact absurd h (by simp)
      | ok y =>
        cases h2 : npLabel clusters i with
        | error e => rw [h0, h1, h2] at h; exact absurd h (by simp)
        | ok c =>
          rw [h0, h1, h2] at h
          cases hrec : assemble reduced clusters (i + 1) rest with
          | error e => rw [hrec] at h; exact absurd h (by simp)
          | ok l' =>
            rw [hrec] at h
            simp only [Except.ok.injEq] at h
            subst h
            simp only [List.map_cons]
            rw [ih (i + 1) l' hrec]
            rfl

theorem buildUserMatrix_length (mapper : String → List String → List MappingEntry)
    (user_ids : Option (List String)) (statements : List String) (i : ℕ)
    (rs : List String) :
    (buildUserMatrix mapper user_ids statements i rs).length = rs.length := by
  induction rs generalizing i with
  | nil => rfl
  | cons r rest ih => simp [buildUserMatrix, ih]

theorem buildUserMatrix_getElem? (mapper : String → List String → List MappingEntry)
    (user_ids : Option (List String)) (statements : List String) (i k : ℕ)
    (rs : List String) :
    (buildUserMatrix mapper user_ids statements i rs)[k]? =
      (rs[k]?).map (fun r =>
        { user_id := assignUserId user_ids (i + k), response := r,
          mapping := mapper r statements }) := by
  induction rs generalizing i k with
  | nil => simp [buildUserMatrix]
  | cons r rest ih =>
    cases k with
    | zero => simp [buildUserMatrix]
    | succ k' =>
      simp only [buildUserMatrix, List.getElem?_cons_succ]
      rw [ih (i + 1) k']
      have : i + 1 + k' = i + (k' + 1) := by omega
      rw [this]

/-! ## Claim theorems -/

/-- Statements for the C1 witness instance. -/
def demoStatements : List String := ["s1", "s2"]

/-- A single mapping entry with an upper-case position, for the C1 witness. -/
def demoEntry : MappingEntry := { statement := some "s1", position := some "AGREE" }

/-- One user whose mapping holds only `demoEntry`, for the C1 witness. -/
def demoMappings : List UserData :=
  [{ user_id := "u", response := "r", mapping := [demoEntry] }]

/-- C1: `PositionMatrixBuilder.build` (`_convert_to_numerical_matrix`): the
matrix has shape (users, statements); every cell is in -1/0/1; entries whose
statement text is not a key of the statement dictionary are silently dropped
(filtering them away changes nothing); a column addressed by no entry stays
0; and a column addressed by exactly one entry carries +1 for position
`agree`, -1 for `disagree` (position compared after lowering) and 0 for
`pass` or any unrecognized position. -/
theorem claim1_position_matrix_builder (mappings : List UserData) (statements : List String) :
    (_convert_to_numerical_matrix mappings statements).length = mappings.length ∧
    (∀ row ∈ _convert_to_numerical_matrix mappings statements,
      row.length = statements.length) ∧
    (∀ row ∈ _convert_to_numerical_matrix mappings statements,
      ∀ v ∈ row, v = -1 ∨ v = 0 ∨ v = 1) ∧
    (_convert_to_numerical_matrix mappings statements =
      _convert_to_numerical_matrix
        (mappings.map (fun ud =>
          { ud with mapping := ud.mapping.filter (knownB (statement_map statements)) }))
        statements) ∧
    (∀ u (hu : u < mappings.length) j, j < statements.length →
      ((mappings.get ⟨u, hu⟩).mapping.filter
          (fun e => targetsColB (statement_map statements) e j)) = [] →
      matCell (_convert_to_numerical_matrix mappings statements) u j = 0) ∧
    (∀ u (hu : u < mappings.length) j, j < statements.length → ∀ e,
      ((mappings.get ⟨u, hu⟩).mapping.filter
          (fun e => targetsColB (statement_map statements) e j)) = [e] →
      matCell (_convert_to_numerical_matrix mappings statements) u j =
        (if positionOf e = "agree" then 1
         else if positionOf e = "disagree" then -1 else 0)) := by
  refine ⟨?_, ?_, ?_, ?_, ?_, ?_⟩
  · simp [_convert_to_numerical_matrix]
  · intro row hrow
    simp only [_convert_to_numerical_matrix, List.mem_map] at hrow
    obtain ⟨u, _, rfl⟩ := hrow
    rw [foldl_applyMapping_length]
    simp
  · intro row hrow
    simp only [_convert_to_numerical_matrix, List.mem_map] at hrow
    obtain ⟨u, _, rfl⟩ := hrow
    refine foldl_applyMapping_mem _ _ _ ?_
    intro v hv
    rcases List.eq_of_mem_replicate hv with rfl
    right; left; rfl
  · simp only [_convert_to_numerical_matrix, List.map_map]
    apply List.map_congr_left
    intro ud _
    exact (foldl_applyMapping_filter_known (statement_map statements) ud.mapping _).symm
  · intro u hu j hj hfil
    rw [convert_cell_spec mappings statements u j hu hj]
    have : ((mappings.get ⟨u, hu⟩).mapping.filter
        (fun e => targetsColB (statement_map statements) e j && recognizedB e)) = [] := by
      rw [List.filter_eq_nil_iff] at hfil ⊢
      intro e he
      have := hfil e he
      simp_all
    rw [this]
    rfl
  · intro u hu j hj e hfil
    rw [convert_cell_spec mappings statements u j hu hj]
    have hff : ((mappings.get ⟨u, hu⟩).mapping.filter
        (fun e => targetsColB (statement_map statements) e j && recognizedB e)) =
        List.filter recognizedB
          ((mappings.get ⟨u, hu⟩).mapping.filter
            (fun e => targetsColB (statement_map statements) e j)) := by
      rw [List.filter_filter]
      apply List.filter_congr
      intro a _
      rw [Bool.and_comm]
    rw [hff, hfil]
    rw [List.filter_singleton]
    by_cases hrec : recognizedB e = true
    · simp only [hrec, cond_true, List.getLast?_singleton]
      rfl
    · have hrec' : recognizedB e = false := by simp_all
      simp only [hrec', cond_false, List.getLast?_nil]
      have hA : ¬ positionOf e = "agree" := by
        intro hc; rw [recognizedB, hc] at hrec'; simp at hrec'
      have hD : ¬ positionOf e = "disagree" := by
        intro hc; rw [recognizedB, hc] at hrec'; simp at hrec'
      simp [hA, hD]

/-- C1 witness: a one-user, two-statement instance where the single entry
carries upper-case position `AGREE` on the first statement: cell (0,0) is 1
and the unaddressed cell (0,1) is 0. -/
theorem claim1_witness :
    matCell (_convert_to_numerical_matrix demoMappings demoStatements) 0 0 = 1 ∧
    matCell (_convert_to_numerical_matrix demoMappings demoStatements) 0 1 = 0 := by
  have h := claim1_position_matrix_builder demoMappings demoStatements
  constructor
  · have h6 := h.2.2.2.2.2 0 (by decide) 0 (by decide) demoEntry (by decide)
    rw [h6]
    decide
  · exact h.2.2.2.2.1 0 (by decide) 1 (by decide) (by decide)

/-- C8 counterexample: with the duplicated statement list `["a", "a"]` the
lookup sends `"a"` to column 1 (its last occurrence), not to column 0 (its
first occurrence) as the claim states. -/
theorem claim8_counterexample :
    statement_map ["a", "a"] "a" = some 1 ∧ statement_map ["a", "a"] "a" ≠ some 0 := by
  constructor <;> decide

/-- C8 amended: the statement-to-column-index lookup maps a duplicated
statement text to the column of its LAST occurrence (a Python dict
comprehension overwrites on duplicate keys). -/
theorem claim8_last_occurrence_wins (l₁ l₂ : List String) (s : String) (h : ¬ s ∈ l₂) :
    statement_map (l₁ ++ s :: l₂) s = some l₁.length := by
  induction l₂ using List.reverseRecOn with
  | nil =>
    have : l₁ ++ [s] = l₁ ++ s :: [] := rfl
    rw [← this, statement_map_snoc]
    simp
  | append_singleton t x ih =>
    have hsx : s ≠ x := by intro hh; exact h (by simp [hh])
    have hst : ¬ s ∈ t := by intro hh; exact h (by simp [hh])
    have hsplit : l₁ ++ s :: (t ++ [x]) = (l₁ ++ s :: t) ++ [x] := by simp
    rw [hsplit, statement_map_snoc]
    simp only [if_neg hsx]
    exact ih hst

/-- C8 witness for the amended claim: in `["a", "a"]` the text `"a"` is sent
to column 1, the index of its last occurrence. -/
theorem claim8_witness : statement_map ["a", "a"] "a" = some 1 :=
  claim8_last_occurrence_wins ["a"] [] "a" (by simp)

/-- The C10 witness user: agree then disagree then pass on one statement. -/
def overwriteUser : UserData :=
  { user_id := "u", response := "r",
    mapping := [{ statement := some "s", position := some "agree" },
                { statement := some "s", position := some "disagree" },
                { statement := some "s", position := some "pass" }] }

/-- C10: when one user's mapping holds several entries for the statement
text of column `j`, the cell equals the value written by the LAST entry for
that text whose position is recognized (`agree` gives 1, `disagree` gives
-1); trailing `pass` or unrecognized entries do not reset it, and with no
recognized entry the cell stays 0. -/
theorem claim10_last_recognized_entry_wins (mappings : List UserData)
    (statements : List String) (u : ℕ) (hu : u < mappings.length) (s : String) (j : ℕ)
    (hs : statement_map statements s = some j) :
    matCell (_convert_to_numerical_matrix mappings statements) u j =
      match ((mappings.get ⟨u, hu⟩).mapping.filter
          (fun e => e.statement == some s && recognizedB e)).getLast? with
      | some e => encodeVal e
      | none => 0 := by
  have hj := statement_map_range statements s j hs
  rw [convert_cell_spec mappings statements u j hu hj]
  have hfil : ((mappings.get ⟨u, hu⟩).mapping.filter
      (fun e => targetsColB (statement_map statements) e j && recognizedB e)) =
      ((mappings.get ⟨u, hu⟩).mapping.filter
        (fun e => e.statement == some s && recognizedB e)) := by
    apply List.filter_congr
    intro e _
    rcases e with ⟨st, pos⟩
    cases st with
    | none => simp [targetsColB]
    | some s' =>
      by_cases hss : s' = s
      · subst hss
        simp [targetsColB, hs]
      · have hne : statement_map statements s' ≠ some j := by
          intro hc
          exact hss (statement_map_inj statements s' s j hc hs)
        have h1 : (statement_map statements s' == some j) = false := by
          simpa using hne
        have h2 : (s' == s) = false := by simpa using hss
        simp [targetsColB, h1, h2]
  rw [hfil]

/-- C10 witness: agree, then disagree, then pass on the same statement
leaves the cell at -1, the value of the last recognized entry. -/
theorem claim10_witness :
    matCell (_convert_to_numerical_matrix [overwriteUser] ["s"]) 0 0 = -1 := by
  have h := claim10_last_recognized_entry_wins [overwriteUser] ["s"] 0 (by decide) "s" 0
    (by decide)
  rw [h]
  decide

/-- C2: whenever `n_components >= min(rows, cols)`, the reduce-and-cluster
branch skips PCA and KMeans (its output does not depend on them) and
returns an all-zero coordinate matrix of shape (rows, n_components) and an
all-zero label vector of length rows, without any error path. -/
theorem claim2_degenerate_fallback (n_components rows cols : ℕ)
    (pca pca' : List (List ℤ) → List (List ℚ)) (kmeans kmeans' : List (List ℚ) → List ℕ)
    (numerical_matrix : List (List ℤ)) (h : n_components ≥ Nat.min rows cols) :
    (reduce_and_cluster n_components rows cols pca kmeans numerical_matrix).1.length = rows ∧
    (∀ row ∈ (reduce_and_cluster n_components rows cols pca kmeans numerical_matrix).1,
      row.length = n_components ∧ ∀ v ∈ row, v = 0) ∧
    (reduce_and_cluster n_components rows cols pca kmeans numerical_matrix).2.length = rows ∧
    (∀ lab ∈ (reduce_and_cluster n_components rows cols pca kmeans numerical_matrix).2,
      lab = 0) ∧
    reduce_and_cluster n_components rows cols pca kmeans numerical_matrix =
      reduce_and_cluster n_components rows cols pca' kmeans' numerical_matrix := by
  have hred : ∀ (p : List (List ℤ) → List (List ℚ)) (k : List (List ℚ) → List ℕ),
      reduce_and_cluster n_components rows cols p k numerical_matrix =
        (List.replicate rows (List.replicate n_components (0 : ℚ)),
         List.replicate rows 0) := by
    intro p k
    unfold reduce_and_cluster
    rw [if_pos h]
  refine ⟨?_, ?_, ?_, ?_, ?_⟩
  · rw [hred]; simp
  · intro row hrow
    rw [hred] at hrow
    rcases List.eq_of_mem_replicate hrow with rfl
    exact ⟨by simp, fun v hv => List.eq_of_mem_replicate hv⟩
  · rw [hred]; simp
  · intro lab hlab
    rw [hred] at hlab
    exact List.eq_of_mem_replicate hlab
  · rw [hred, hred]

/-- C2 witness: 1 user, 2 statements, `n_components = 2` (so `2 >= min 1 2`):
one all-zero coordinate row and one zero label. -/
theorem claim2_witness :
    (reduce_and_cluster 2 1 2 pcaStub kmStub [[1, -1]]).1.length = 1 ∧
    (reduce_and_cluster 2 1 2 pcaStub kmStub [[1, -1]]).2.length = 1 := by
  have h := claim2_degenerate_fallback 2 1 2 pcaStub pcaStub kmStub kmStub [[1, -1]]
    (by decide)
  exact ⟨h.1, h.2.2.1⟩

/-- C5 counterexample: on the 3-user 1-statement boundary scenario with
`n_components = 1`, `analyze` does not return a result at all: the assembly
reads coordinate column 1 of the (3, 1) all-zero fallback matrix and raises
IndexError, contradicting the claim that the analysis returns all-zero
coordinates and labels without raising. -/
theorem claim5_counterexample :
    analyze 1 pcaStub kmStub parkScenario parkStatements = .error "IndexError" := rfl

/-- C5 amended: the built matrix is `[[1], [-1], [0]]`; with
`n_components = 1` the degenerate fallback inside reduce-and-cluster does
produce all-zero (3, 1) coordinates and all-zero labels, but `analyze` then
raises IndexError while assembling the `y` coordinate (it reads column 1);
with the default `n_components = 2` (which also satisfies `2 >= min(3,1)`)
`analyze` returns every user with zero coordinates and zero labels without
raising. -/
theorem claim5_amended_boundary_scenario :
    _convert_to_numerical_matrix parkScenario parkStatements = [[1], [-1], [0]] ∧
    reduce_and_cluster 1 3 1 pcaStub kmStub [[1], [-1], [0]] =
      ([[0], [0], [0]], [0, 0, 0]) ∧
    analyze 1 pcaStub kmStub parkScenario parkStatements = .error "IndexError" ∧
    analyze 2 pcaStub kmStub parkScenario parkStatements = .ok
      [{ user_id := "participant_1", response := "I support the new park",
         x := 0, y := 0, cluster := 0 },
       { user_id := "participant_2", response := "I oppose the new park",
         x := 0, y := 0, cluster := 0 },
       { user_id := "participant_3", response := "Not sure about the park",
         x := 0, y := 0, cluster := 0 }] := by
  refine ⟨rfl, rfl, rfl, rfl⟩

/-- C3 counterexample: a stub extractor returning zero statements on a
non-empty batch makes `_run_polis_analysis` raise HTTP status 500, which is
a server error, not the client error (4xx) the claim states. -/
theorem claim3_counterexample :
    _run_polis_analysis emptyExtractor mapperStub pcaStub kmStub ["a"] none =
      .error noStatementsError ∧
    ¬ (400 ≤ 500 ∧ 500 < 500) := ⟨rfl, by decide⟩

/-- C3 amended: for every non-empty responses list, if the extractor yields
zero statements the whole operation fails at once with the HTTP 500
"Failed to extract statements for analysis." error (a server-status error,
not a 4xx client error), and no mapping call is made: the outcome does not
depend on the mapper at all. -/
theorem claim3_failure_on_empty_extraction
    (extractor : List String → List String)
    (mapper : String → List String → List MappingEntry)
    (pca : List (List ℤ) → List (List ℚ)) (kmeans : List (List ℚ) → List ℕ)
    (responses : List String) (user_ids : Option (List String))
    (_hne : responses ≠ []) (hext : extractor responses = []) :
    _run_polis_analysis extractor mapper pca kmeans responses user_ids =
      .error noStatementsError := by
  simp [_run_polis_analysis, hext, noStatementsError]

/-- C3 witness: the amended failure at a concrete non-empty batch. -/
theorem claim3_witness :
    _run_polis_analysis emptyExtractor mapperStub pcaStub kmStub ["r"] none =
      .error noStatementsError :=
  claim3_failure_on_empty_extraction emptyExtractor mapperStub pcaStub kmStub ["r"] none
    (by decide) rfl

/-- C4 counterexample: with zero responses the pipeline does NOT return an
empty-result shape: the (short-circuited, LLM-free) extraction yields zero
statements and `_run_polis_analysis` raises the HTTP 500 extraction error. -/
theorem claim4_counterexample :
    _run_polis_analysis (extract_statements (Except.ok ["x"])) mapperStub pcaStub kmStub
      [] none =
      .error noStatementsError := rfl

/-- C4 amended: with zero responses no external capability is consulted
(`extract_statements` short-circuits before its LLM call, so the outcome
depends neither on the extraction oracle nor on the mapper), but
`analyze_opinions` then raises the HTTP 500 "Failed to extract statements"
error instead of returning an empty-result shape. -/
theorem claim4_empty_input_raises (oracle : Except String (List String))
    (mapper : String → List String → List MappingEntry)
    (pca : List (List ℤ) → List (List ℚ)) (kmeans : List (List ℚ) → List ℕ)
    (user_ids : Option (List String)) :
    extract_statements oracle [] = [] ∧
    _run_polis_analysis (extract_statements oracle) mapper pca kmeans [] user_ids =
      .error noStatementsError :=
  ⟨rfl, rfl⟩

/-- A successful `analyze` copies ids and responses from its input, in order. -/
theorem analyze_ok_pairs (n_components : ℕ)
    (pca : List (List ℤ) → List (List ℚ)) (kmeans : List (List ℚ) → List ℕ)
    (usm : List UserData) (sts : List String) (users : List UserResult)
    (h : analyze n_components pca kmeans usm sts = .ok users) :
    users.map pairOfResult = usm.map pairOfUser := by
  simp only [analyze] at h
  by_cases hU : usm.isEmpty
  · rw [if_pos hU] at h
    simp only [Except.ok.injEq] at h
    subst h
    rw [List.isEmpty_iff.mp hU]
    rfl
  · rw [if_neg hU] at h
    exact assemble_ok_pairs _ _ 0 usm users h

/-- C6: whenever `_run_polis_analysis` succeeds, the users list is aligned
with the input: it has one entry per response, entry `i` carries response
`i`, and its user id is `user_ids[i]` when that list is supplied and long
enough, else the synthetic `participant_` followed by `i+1`. -/
theorem claim6_order_and_user_ids
    (extractor : List String → List String)
    (mapper : String → List String → List MappingEntry)
    (pca : List (List ℤ) → List (List ℚ)) (kmeans : List (List ℚ) → List ℕ)
    (responses : List String) (user_ids : Option (List String)) (res : PolisResult)
    (h : _run_polis_analysis extractor mapper pca kmeans responses user_ids = .ok res) :
    res.analysis_results.length = responses.length ∧
    (∀ i : ℕ, (res.analysis_results[i]?).map UserResult.response = responses[i]?) ∧
    (∀ i : ℕ, i < responses.length →
      (res.analysis_results[i]?).map UserResult.user_id =
        some (match user_ids with
              | some ids =>
                if hix : i < ids.length then ids.get ⟨i, hix⟩
                else "participant_" ++ toString (i + 1)
              | none => "participant_" ++ toString (i + 1))) := by
  simp only [_run_polis_analysis] at h
  by_cases hS : (extractor responses).isEmpty
  · rw [if_pos hS] at h
    exact absurd h (by simp)
  · rw [if_neg hS] at h
    cases hA : analyze 2 pca kmeans
        (buildUserMatrix mapper user_ids (extractor responses) 0 responses)
        (extractor responses) with
    | error e => rw [hA] at h; exact absurd h (by simp)
    | ok users =>
      rw [hA] at h
      simp only [Except.ok.injEq] at h
      subst h
      have hpairs := analyze_ok_pairs 2 pca kmeans _ _ users hA
      have husm : ∀ i : ℕ,
          (buildUserMatrix mapper user_ids (extractor responses) 0 responses)[i]? =
            (responses[i]?).map (fun r =>
              { user_id := assignUserId user_ids i, response := r,
                mapping := mapper r (extractor responses) }) := by
        intro i
        rw [buildUserMatrix_getElem?]
        simp
      have hcomp : ∀ i : ℕ, (users[i]?).map pairOfResult =
          (responses[i]?).map (fun r => (assignUserId user_ids i, r)) := by
        intro i
        have hi := congrArg (fun l => l[i]?) hpairs
        simp only [List.getElem?_map] at hi
        rw [husm i] at hi
        rw [hi, Option.map_map]
        rfl
      have hlen : users.length = responses.length := by
        have := congrArg List.length hpairs
        simp only [List.length_map] at this
        rw [this, buildUserMatrix_length]
      refine ⟨hlen, ?_, ?_⟩
      · intro i
        have hi := hcomp i
        cases hr : responses[i]? with
        | none =>
          rw [hr] at hi
          simp only [Option.map_none'] at hi
          rw [Option.map_eq_none'] at hi
          simp [hi]
        | some r =>
          rw [hr] at hi
          cases hu : users[i]? with
          | none => rw [hu] at hi; simp at hi
          | some ur =>
            rw [hu] at hi
            simp only [Option.map_some', Option.some.injEq] at hi
            have : ur.response = r := congrArg Prod.snd hi
            simp [this]
      · intro i hilt
        have hi := hcomp i
        have hr : ∃ r, responses[i]? = some r := by
          rw [List.getElem?_eq_getElem hilt]
          exact ⟨_, rfl⟩
        obtain ⟨r, hr⟩ := hr
        rw [hr] at hi
        cases hu : users[i]? with
        | none => rw [hu] at hi; simp at hi
        | some ur =>
          rw [hu] at hi
          simp only [Option.map_some', Option.some.injEq] at hi
          have : ur.user_id = assignUserId user_ids i := congrArg Prod.fst hi
          simp only [Option.map_some', this]
          cases user_ids <;> rfl

/-- The concrete successful run used by the C6 witness. -/
def polisResW : PolisResult :=
  { statements := ["s"],
    analysis_results :=
      [{ user_id := "u1", response := "r1", x := 0, y := 0, cluster := 0 },
       { user_id := "participant_2", response := "r2", x := 0, y := 0, cluster := 0 }] }

/-- C6 witness: a concrete two-response run with one supplied user id:
the result has two aligned users, the first with the supplied id. -/
theorem claim6_witness :
    polisResW.analysis_results.length = 2 ∧
    (polisResW.analysis_results[0]?).map UserResult.user_id = some "u1" ∧
    (polisResW.analysis_results[1]?).map UserResult.response = some "r2" := by
  have h := claim6_order_and_user_ids constExtractor mapperStub pcaStub kmStub
    ["r1", "r2"] (some ["u1"]) polisResW rfl
  refine ⟨h.1, ?_, h.2.1 1⟩
  have := h.2.2 0 (by decide)
  simpa using this

/-- C7 counterexample: a raw capability mapping with two entries for the
single statement `"s"` passes through the completion step untouched, so the
completed list holds two entries for that statement, not exactly one. -/
theorem claim7_counterexample :
    ((map_response_to_statements (Except.ok dupRawMapping) "r" ["s"]).filter
      (fun e => e.statement == some "s")).length = 2 ∧ (2 : ℕ) ≠ 1 := by
  constructor <;> decide

/-- The raw mapping used by the C7 witness. -/
def demoRaw : List MappingEntry := [{ statement := some "s1", position := some "agree" }]

/-- C7 amended: the completion step guarantees no omissions — after it,
every statement of the run's set is covered by at least one entry, and the
appended entries are exactly `pass` fills for the statements the raw
mapping left uncovered, in statement order, with the raw entries kept
unchanged in front.  Exactly-one coverage holds only when the statement set
has no duplicates and the raw mapping itself covers no statement twice;
duplicate raw entries are not removed. -/
theorem claim7_completion_no_omissions (raw : List MappingEntry) (response_text : String)
    (statements : List String) (hne : statements ≠ []) :
    (∀ s ∈ statements,
      ∃ e ∈ map_response_to_statements (Except.ok raw) response_text statements,
        coveredText e = s) ∧
    (map_response_to_statements (Except.ok raw) response_text statements =
      raw ++ (statements.filter (fun s => ¬ s ∈ raw.map coveredText)).map
        (fun s => { statement := some s, position := some "pass" })) ∧
    (statements.Nodup → (raw.map coveredText).Nodup →
      ∀ s ∈ statements,
        ((map_response_to_statements (Except.ok raw) response_text statements).map
          coveredText).count s = 1) := by
  have hE : statements.isEmpty = false := by
    cases statements with
    | nil => exact absurd rfl hne
    | cons a t => rfl
  have heq : map_response_to_statements (Except.ok raw) response_text statements =
      raw ++ (statements.filter (fun s => ¬ s ∈ raw.map coveredText)).map
        (fun s => { statement := some s, position := some "pass" }) := by
    simp [map_response_to_statements, hE]
  refine ⟨?_, heq, ?_⟩
  · intro s hs
    by_cases hc : s ∈ raw.map coveredText
    · obtain ⟨e, he, hce⟩ := List.mem_map.mp hc
      refine ⟨e, ?_, hce⟩
      rw [heq]
      exact List.mem_append_left _ he
    · refine ⟨{ statement := some s, position := some "pass" }, ?_, rfl⟩
      rw [heq]
      refine List.mem_append_right _ ?_
      refine List.mem_map.mpr ⟨s, ?_, rfl⟩
      refine List.mem_filter.mpr ⟨hs, ?_⟩
      simpa using hc
  · intro hnd hndraw s hs
    have hmap : (map_response_to_statements (Except.ok raw) response_text statements).map
        coveredText =
        raw.map coveredText ++ statements.filter (fun s => ¬ s ∈ raw.map coveredText) := by
      rw [heq, List.map_append, List.map_map]
      congr 1
      have : coveredText ∘ (fun s => ({ statement := some s, position := some "pass" } :
          MappingEntry)) = fun s => s := by
        funext s'
        rfl
      rw [this, List.map_id']
    rw [hmap, List.count_append]
    by_cases hc : s ∈ raw.map coveredText
    · have h1 : (raw.map coveredText).count s = 1 := List.count_eq_one_of_mem hndraw hc
      have h2 : (statements.filter (fun s => ¬ s ∈ raw.map coveredText)).count s = 0 := by
        rw [List.count_eq_zero]
        intro hmem
        have hdec := (List.mem_filter.mp hmem).2
        simp only [decide_eq_true_eq] at hdec
        exact hdec hc
      omega
    · have h1 : (raw.map coveredText).count s = 0 := List.count_eq_zero.mpr hc
      have hp : (fun s' => decide (¬ s' ∈ raw.map coveredText)) s = true := by
        simpa using hc
      have h2 : (statements.filter (fun s => ¬ s ∈ raw.map coveredText)).count s =
          statements.count s := List.count_filter hp
      have h3 : statements.count s = 1 := List.count_eq_one_of_mem hnd hs
      omega

/-- C7 witness: one raw agree entry on `s1` with statement set `[s1, s2]`:
after completion both statements are covered exactly once. -/
theorem claim7_witness :
    ((map_response_to_statements (Except.ok demoRaw) "r" ["s1", "s2"]).map
      coveredText).count "s1" = 1 ∧
    ((map_response_to_statements (Except.ok demoRaw) "r" ["s1", "s2"]).map
      coveredText).count "s2" = 1 := by
  have h := claim7_completion_no_omissions demoRaw "r" ["s1", "s2"] (by decide)
  exact ⟨h.2.2 (by decide) (by decide) "s1" (by decide),
         h.2.2 (by decide) (by decide) "s2" (by decide)⟩

/-- C9: for any non-empty responses list, `extract_statements` yields a
non-empty list of at most 10 statements: an exception inside the call
yields one placeholder statement, a parsed list shorter than 3 is padded
with the three defaults, one longer than 10 is truncated to 10 — so the
orchestrator's failed-to-extract branch is unreachable for non-empty input. -/
theorem claim9_extraction_never_empty (oracle : Except String (List String))
    (responses : List String) (hne : responses ≠ []) :
    extract_statements oracle responses ≠ [] ∧
    (extract_statements oracle responses).length ≤ 10 ∧
    (∀ msg, oracle = .error msg →
      extract_statements oracle responses = ["Error extracting statements"]) ∧
    (∀ sts, oracle = .ok sts → sts.length < 3 →
      extract_statements oracle responses = sts ++ defaultStatements) ∧
    (∀ sts, oracle = .ok sts → sts.length > 10 →
      extract_statements oracle responses = sts.take 10) ∧
    (∀ (mapper : String → List String → List MappingEntry)
      (pca : List (List ℤ) → List (List ℚ)) (kmeans : List (List ℚ) → List ℕ)
      (user_ids : Option (List String)),
      _run_polis_analysis (extract_statements oracle) mapper pca kmeans responses user_ids ≠
        .error noStatementsError) := by
  have hE : responses.isEmpty = false := by
    cases responses with
    | nil => exact absurd rfl hne
    | cons a t => rfl
  have hmain : extract_statements oracle responses ≠ [] ∧
      (extract_statements oracle responses).length ≤ 10 := by
    cases oracle with
    | error msg => simp [extract_statements, hE]
    | ok sts =>
      by_cases h10 : sts.length > 10
      · have : extract_statements (Except.ok sts) responses = sts.take 10 := by
          simp [extract_statements, hE, if_pos h10]
        rw [this]
        constructor
        · have : (sts.take 10).length = 10 := by
            rw [List.length_take]
            omega
          intro hc
          rw [hc] at this
          simp at this
        · rw [List.length_take]
          omega
      · by_cases h3 : sts.length < 3
        · have : extract_statements (Except.ok sts) responses = sts ++ defaultStatements := by
            simp [extract_statements, hE, if_neg h10, if_pos h3]
          rw [this]
          constructor
          · simp [defaultStatements]
          · simp only [List.length_append]
            simp [defaultStatements]
            omega
        · have : extract_statements (Except.ok sts) responses = sts := by
            simp [extract_statements, hE, if_neg h10, if_neg h3]
          rw [this]
          constructor
          · intro hc
            rw [hc] at h3
            simp at h3
          · omega
  refine ⟨hmain.1, hmain.2, ?_, ?_, ?_, ?_⟩
  · intro msg hmsg
    subst hmsg
    simp [extract_statements, hE]
  · intro sts hok h3
    subst hok
    have h10 : ¬ sts.length > 10 := by omega
    simp [extract_statements, hE, if_neg h10, if_pos h3]
  · intro sts hok h10
    subst hok
    simp [extract_statements, hE, if_pos h10]
  · intro mapper pca kmeans user_ids
    have hS : (extract_statements oracle responses).isEmpty = false := by
      cases hcase : extract_statements oracle responses with
      | nil => exact absurd hcase hmain.1
      | cons a t => rfl
    simp only [_run_polis_analysis, hS, Bool.false_eq_true, if_false]
    cases hA : analyze 2 pca kmeans
        (buildUserMatrix mapper user_ids (extract_statements oracle responses) 0 responses)
        (extract_statements oracle responses) with
    | error e => simp [noStatementsError]
    | ok users => simp

/-- C9 witness: one response and a parsed single statement: the result is
that statement padded with the three defaults, hence non-empty. -/
theorem claim9_witness :
    extract_statements (Except.ok ["a"]) ["r"] ≠ [] ∧
    extract_statements (Except.ok ["a"]) ["r"] = ["a"] ++ defaultStatements := by
  have h := claim9_extraction_never_empty (Except.ok ["a"]) ["r"] (by decide)
  exact ⟨h.1, h.2.2.2.1 ["a"] rfl (by decide)⟩

end Cosenseus
